import Mathlib

/-!
Verification development for the o2view respirometry tool.

This file gives a shallow embedding, in Lean 4, of the core data pipeline of
the repository: the delimiter detector and numeric-table ingestion
(`datamodel.parse_contents`, `datamodel.detect_delimiter`), the linear fit
engine (`datamodel.LinearFit`, `scipy.stats.linregress` as used there), the
fit-collection operations of the Dash callbacks (`server.add_fit`,
`server.make_plot`, `server.remove_fit`), the overlay construction
(`visualization.make_fit_trace`) and the review-marker store
(`datamodel.GlobalState.mark_file`).

Modelling conventions:
- Python `float` values are modelled by `PyF`: either an exact rational
  (`PyF.num`), the value `nan`, or `PyF.irr`, a placeholder for a real value
  (an irrational square root) that the exact model does not track.  All
  rational arithmetic is exact; IEEE-754 rounding is not modelled.
- Rationals are modelled by `MQ`, a normalized numerator/denominator pair
  with arithmetic written over `Int`/`Nat` primitives, so that every
  definition in this file evaluates inside the Lean kernel.
- Python strings are modelled by `String`, but every operation is written
  over the underlying `List Char` (`String.data`), again so that concrete
  runs reduce in the kernel.  `bytes.decode("utf-8", errors="replace")` is a
  total function of the payload, so the decoded text is taken as the input
  of the text path; the base64 step, which can fail, is modelled by a flag.
-/

/-- Kernel-computable greatest common divisor used by the exact rational
model (the library `Nat.gcd` is used directly; it reduces in the kernel). -/
def mqGcd (a b : Nat) : Nat := Nat.gcd a b

/-- Exact rational number with normalized representation: the denominator is
positive and coprime to the numerator, and the sign lives in the numerator.
All values produced by the smart constructor `mqNorm` are in normal form, so
derived structural equality coincides with equality of rational values. -/
structure MQ where
  num : Int
  den : Nat
  deriving DecidableEq

/-- Smart constructor producing the normal form of the fraction n / d.  A
zero denominator never arises in the embedded code (every division is
guarded); it is mapped to 0 for totality. -/
def mqNorm (n d : Int) : MQ :=
  if d = 0 then ⟨0, 1⟩
  else
    let neg : Bool := (decide (n < 0)) != (decide (d < 0))
    let na := n.natAbs
    let da := d.natAbs
    let g := mqGcd na da
    let nn := na / g
    let dn := da / g
    ⟨if neg then -(nn : Int) else (nn : Int), dn⟩

/-- Rational from an integer. -/
def mqI (n : Int) : MQ := ⟨n, 1⟩

/-- Rational from a natural number. -/
def mqOfNat (n : Nat) : MQ := ⟨(n : Int), 1⟩

/-- Rational from a ready fraction, normalized. -/
def mq (n d : Int) : MQ := mqNorm n d

/-- Addition of exact rationals. -/
def MQ.add (a b : MQ) : MQ := mqNorm (a.num * b.den + b.num * a.den) ((a.den : Int) * (b.den : Int))

/-- Subtraction of exact rationals. -/
def MQ.sub (a b : MQ) : MQ := mqNorm (a.num * b.den - b.num * a.den) ((a.den : Int) * (b.den : Int))

/-- Multiplication of exact rationals. -/
def MQ.mul (a b : MQ) : MQ := mqNorm (a.num * b.num) ((a.den : Int) * (b.den : Int))

/-- Division of exact rationals (0 when the divisor is 0; every use in the
embedded code is guarded by a zero test, as in the source). -/
def MQ.div (a b : MQ) : MQ := mqNorm (a.num * (b.den : Int)) ((a.den : Int) * b.num)

/-- Zero test. -/
def MQ.isZero (a : MQ) : Bool := a.num == 0

/-- Negativity test. -/
def MQ.isNeg (a : MQ) : Bool := decide (a.num < 0)

/-- Sum of a list of exact rationals. -/
def mqSum : List MQ → MQ
  | [] => ⟨0, 1⟩
  | a :: as => MQ.add a (mqSum as)

/-- Square of an exact rational. -/
def MQ.sq (a : MQ) : MQ := a.mul a

/-- Kernel-computable integer square root by bounded search (only ever
evaluated on small concrete values; `Nat.sqrt` itself does not reduce in the
kernel). -/
def natSqrtExact? (n : Nat) : Option Nat :=
  (List.range (n + 2)).find? (fun k => k * k == n)

/-- Python float values as used by the embedded code: an exact rational, the
IEEE `nan`, or `irr`, an irrational value whose exact magnitude the rational
model does not track (it arises only as the square root of a non-square
rational, i.e. a correlation coefficient).  No claim in scope depends on the
magnitude of an `irr` value. -/
inductive PyF where
  | nan : PyF
  | irr : PyF
  | num : MQ → PyF
  deriving DecidableEq

/-- Addition with `nan` propagation, mirroring IEEE float addition on the
values the model tracks. -/
def pfAdd : PyF → PyF → PyF
  | PyF.nan, _ => PyF.nan
  | _, PyF.nan => PyF.nan
  | PyF.irr, _ => PyF.irr
  | _, PyF.irr => PyF.irr
  | PyF.num a, PyF.num b => PyF.num (a.add b)

/-- Multiplication with `nan` propagation, mirroring IEEE float
multiplication on the values the model tracks. -/
def pfMul : PyF → PyF → PyF
  | PyF.nan, _ => PyF.nan
  | _, PyF.nan => PyF.nan
  | PyF.irr, _ => PyF.irr
  | _, PyF.irr => PyF.irr
  | PyF.num a, PyF.num b => PyF.num (a.mul b)

/-- Python truthiness of a float: `0.0` is falsy, every other float
(including `nan`) is truthy. -/
def pfTruthy : PyF → Bool
  | PyF.nan => true
  | PyF.irr => true
  | PyF.num a => !a.isZero

/-- Exact square root of a nonnegative rational, as a `PyF`: the exact
rational root when it exists, `irr` otherwise. -/
def mqSqrtPF (a : MQ) : PyF :=
  match natSqrtExact? a.num.natAbs, natSqrtExact? a.den with
  | some sn, some sd => PyF.num (mqNorm (sn : Int) (sd : Int))
  | _, _ => PyF.irr

/-- Negation on `PyF` (sign of an `irr` value is not tracked). -/
def pfNeg : PyF → PyF
  | PyF.nan => PyF.nan
  | PyF.irr => PyF.irr
  | PyF.num a => PyF.num ⟨-a.num, a.den⟩

/-! Text utilities over `List Char`, mirroring the Python string operations
used by the ingestion pipeline.  They are written over `String.data` because
the built-in `String` functions do not reduce in the Lean kernel. -/

/-- Character comparison by code point (for UTF-8 text this coincides with
the bytewise order used by polars when sorting strings). -/
def charLt (a b : Char) : Bool := decide (a.toNat < b.toNat)

/-- Lower-casing of an ASCII letter, as Python `str.lower` acts on the
characters that occur in the embedded scenarios. -/
def lowerChar (c : Char) : Char :=
  if charLt c 'A' then c
  else if charLt 'Z' c then c
  else Char.ofNat (c.toNat + 32)

/-- Python whitespace characters stripped by `str.strip()`. -/
def isPySpace (c : Char) : Bool :=
  c == ' ' || c == '\t' || c == '\n' || c == '\r' || c == '\x0b' || c == '\x0c'

/-- Python `str.strip()`: remove leading and trailing whitespace. -/
def pyStrip (l : List Char) : List Char :=
  ((l.dropWhile isPySpace).reverse.dropWhile isPySpace).reverse

/-- Boolean test that `pat` is an initial segment of `l`. -/
def startsWith : List Char → List Char → Bool
  | [], _ => true
  | _ :: _, [] => false
  | a :: pas, b :: bs => a == b && startsWith pas bs

/-- Worker for `splitOnL`, structurally recursive on a fuel argument so that
it reduces inside the Lean kernel; the fuel is always at least the length of
the list, so the zero-fuel branch is unreachable. -/
def splitOnAuxF (sep : List Char) : Nat → List Char → List (List Char)
  | _, [] => [[]]
  | 0, l => [l]
  | fuel + 1, x :: xs =>
    if sep.length != 0 && startsWith sep (x :: xs) then
      [] :: splitOnAuxF sep fuel (List.drop (sep.length - 1) xs)
    else
      match splitOnAuxF sep fuel xs with
      | [] => [[x]]
      | g :: gs => (x :: g) :: gs

/-- Python `str.split(sep)` for a nonempty separator, on character lists:
greedy left-to-right splitting, keeping empty fields.  For an empty
separator the caller raises before splitting, modelled at the call site. -/
def splitOnL (sep : List Char) (l : List Char) : List (List Char) :=
  splitOnAuxF sep l.length l

/-- Python `str.splitlines()` restricted to `\n` line breaks (the texts in
scope use `\n`; `\r` survives into fields and is removed by the later
`str.strip()` cleaning, as in the source): split on `\n` and drop the
trailing empty piece produced by a final newline. -/
def pySplitlines (l : List Char) : List (List Char) :=
  match l with
  | [] => []
  | _ :: _ =>
    let ps := splitOnL ['\n'] l
    if ps.getLast? = some [] then ps.dropLast else ps

/-- Join a list of character lists with a separator list, as Python
`sep.join(...)`. -/
def joinListWith (sep : List Char) : List (List Char) → List Char
  | [] => []
  | [l] => l
  | l :: ls => l ++ sep ++ joinListWith sep ls

/-- Lexicographic order on character lists by code point; models the
ordering polars uses on string columns. -/
def lexLt : List Char → List Char → Bool
  | [], [] => false
  | [], _ :: _ => true
  | _ :: _, [] => false
  | a :: as, b :: bs => charLt a b || (a == b && lexLt as bs)

/-- Stable insertion of an element into a list: the element is placed after
every existing element `a` with `le a x`. -/
def insertLe {α : Type} (le : α → α → Bool) (x : α) : List α → List α
  | [] => [x]
  | a :: as => if le a x then a :: insertLe le x as else x :: a :: as

/-- Stable sort by repeated insertion; models a stable sort such as
`DataFrame.sort(..., maintain_order=True)` in polars. -/
def stableSortLe {α : Type} (le : α → α → Bool) (l : List α) : List α :=
  l.foldl (fun acc x => insertLe le x acc) []

/-! Error values.  Python exceptions escaping or being caught are modelled by
`Except PyError`; the constructors name the concrete exception sites of the
source (polars, scipy and the explicit `ValueError`s of `datamodel.py`). -/

/-- Exceptions raised by the embedded code paths. -/
inductive PyError where
  | emptyFile : PyError
  | insufficientRows : PyError
  | sniffFailed : PyError
  | parseError : PyError
  | columnNotFound : String → PyError
  | duplicateColumn : String → PyError
  | outOfBounds : PyError
  | negativeSlice : PyError
  | shapeMismatch : PyError
  | valueEmptyInput : PyError
  | valueLengthMismatch : PyError
  | valueIdenticalX : PyError
  deriving DecidableEq

deriving instance DecidableEq for Except

/-- Numeric data frame: ordered named columns of exact rationals.  Models a
polars `DataFrame` after the ingestion pipeline has reduced it to numeric
columns (nulls do not occur in the scenarios in scope and are not
modelled). -/
structure DataFrame where
  cols : List (String × List MQ)
  deriving DecidableEq

/-- Number of rows, read off the first column (0 for a column-less frame,
as in polars where a frame with no columns has height 0). -/
def DataFrame.height (df : DataFrame) : Nat :=
  match df.cols with
  | [] => 0
  | c :: _ => c.2.length

/-- Column names, in order. -/
def DataFrame.colNames (df : DataFrame) : List String :=
  df.cols.map Prod.fst

/-- Well-formedness: every column has the common height.  Polars enforces
this on construction; the embedding states it as a hypothesis where it is
needed. -/
def DataFrame.wfB (df : DataFrame) : Bool :=
  df.cols.all (fun p => p.2.length == df.height)

/-- Polars `DataFrame.get_column`: the named column, or a
`ColumnNotFoundError`. -/
def DataFrame.get_column (df : DataFrame) (name : String) : Except PyError (List MQ) :=
  match df.cols.find? (fun p => p.1 == name) with
  | some p => Except.ok p.2
  | none => Except.error (PyError.columnNotFound name)

/-- Polars `DataFrame.slice(offset, length)`: rows are clamped to the
available range; a negative length is rejected when the Python int is
converted to the unsigned Rust length (an uncaught `OverflowError`). -/
def DataFrame.slice (df : DataFrame) (offset : Nat) (len : Int) : Except PyError DataFrame :=
  if len < 0 then Except.error PyError.negativeSlice
  else Except.ok ⟨df.cols.map (fun p => (p.1, (p.2.drop offset).take len.toNat))⟩

/-- Polars `Series.item(0)`: first element, or an out-of-bounds error on an
empty series. -/
def pyItem0 : List MQ → Except PyError MQ
  | [] => Except.error PyError.outOfBounds
  | a :: _ => Except.ok a

/-- Polars `Series.item(-1)`: last element, or an out-of-bounds error on an
empty series. -/
def pyItemLast (l : List MQ) : Except PyError MQ :=
  match l.getLast? with
  | some a => Except.ok a
  | none => Except.error PyError.outOfBounds

/-- Raw parsed table before numeric filtering: each column is either numeric
or non-numeric (carried as raw text / arbitrary cells). -/
inductive ColRaw where
  | nums : List MQ → ColRaw
  | strs : List String → ColRaw
  deriving DecidableEq

/-- Raw data frame as produced by `pl.scan_csv` / `pl.read_excel` before
`select(cs.numeric())`. -/
def DataFrameRaw : Type := List (String × ColRaw)

/-! Delimiter detector (`datamodel.detect_delimiter`). -/

/-- Candidate separators considered by the sniffing heuristic, in preference
order; models the preferred-delimiter list of Python `csv.Sniffer`. -/
def sniffCandidates : List Char := [',', '\t', ';', ' ', ':', '|']

/-- Occurrences of a character in a line. -/
def countChar (c : Char) (l : List Char) : Nat := l.countP (fun d => d == c)

/-- Delimiter sniffing heuristic: a candidate is accepted when it occurs a
constant positive number of times on every sampled line; the first accepted
candidate in preference order wins.  Models the character-frequency mode of
`csv.Sniffer.sniff` on unquoted data. -/
def sniffDelimiter (sample : List (List Char)) : Option Char :=
  match sample with
  | [] => none
  | l :: ls =>
    sniffCandidates.find? (fun c =>
      countChar c l != 0 && ls.all (fun l2 => countChar c l2 == countChar c l))

/-- The delimiter detector `datamodel.detect_delimiter(decoded_string,
skip_rows, sample_rows)`: clamp `sample_rows` to at least 1, split into
lines, fail on an empty file or on fewer than `skip_rows + sample_rows`
lines, then sniff the sampled window. -/
def detect_delimiter (decoded_string : String) (skip_rows : Nat) (sample_rows : Nat := 3) :
    Except PyError String :=
  let sample_rows := max 1 sample_rows
  let lines := pySplitlines decoded_string.data
  if lines.isEmpty then Except.error PyError.emptyFile
  else if lines.length < skip_rows + sample_rows then Except.error PyError.insufficientRows
  else
    match sniffDelimiter ((lines.drop skip_rows).take sample_rows) with
    | some c => Except.ok ⟨[c]⟩
    | none => Except.error PyError.sniffFailed

/-! Ingestion (`datamodel.parse_contents`). -/

/-- Kernel-computable decimal digit list to `Nat`. -/
def natOfDigits (l : List Char) : Nat :=
  l.foldl (fun acc c => acc * 10 + (c.toNat - 48)) 0

/-- Numeric literal parser for CSV fields: optional sign, then digits with
at most one decimal point and at least one digit.  Models the subset of the
polars numeric schema inference exercised by the data in scope (exponent
and infinity forms do not occur there). -/
def parseNumQ (l : List Char) : Option MQ :=
  let core : List Char → Option MQ := fun ds =>
    match splitOnL ['.'] ds with
    | [ip] =>
      if ip.isEmpty || !ip.all Char.isDigit then none
      else some (mqI (natOfDigits ip))
    | [ip, fp] =>
      if (ip.isEmpty && fp.isEmpty) || !ip.all Char.isDigit || !fp.all Char.isDigit then none
      else some (mqNorm ((natOfDigits ip * 10 ^ fp.length + natOfDigits fp : Nat) : Int)
                        ((10 ^ fp.length : Nat) : Int))
    | _ => none
  match l with
  | '-' :: rest => (core rest).map (fun q => ⟨-q.num, q.den⟩)
  | '+' :: rest => core rest
  | _ => core l

/-- Name normalization applied by `clean_names(remove_special=True,
strip_underscores=True, strip_accents=True)` from `janitor.polars`, on the
ASCII names in scope: lower-case letters and digits are kept, upper-case
letters are lowered, common separator punctuation becomes an underscore,
any other character is removed, and leading/trailing underscores are
stripped. -/
def normChar (c : Char) : Option Char :=
  if (charLt 'a' c || 'a' == c) && (charLt c 'z' || c == 'z') then some c
  else if c.isDigit || c == '_' then some c
  else if (charLt 'A' c || 'A' == c) && (charLt c 'Z' || c == 'Z') then some (lowerChar c)
  else if c == ' ' || c == '-' || c == '/' || c == '.' || c == '(' || c == ')'
       || c == ':' || c == ',' || c == '?' then some '_'
  else none

/-- Cleaned column name (see `normChar`). -/
def cleanName (s : String) : String :=
  ⟨((((s.data.filterMap normChar).dropWhile (fun c => c == '_')).reverse.dropWhile
      (fun c => c == '_')).reverse)⟩

/-- CSV reader modelling the `pl.scan_csv(...).collect()` call of
`parse_contents`: split the cleaned text into lines, skip `skip_rows`
lines, ignore blank lines (as polars does), take the next line as the
header, reject ragged data rows, and type each column as numeric exactly
when every entry parses as a number (the frames in scope are within the
schema-inference window of polars). -/
def scan_csv (content : List Char) (skip_rows : Nat) (sep : List Char) :
    Except PyError DataFrameRaw :=
  let lines := ((pySplitlines content).drop skip_rows).filter (fun l => !l.isEmpty)
  match lines with
  | [] => Except.error PyError.parseError
  | header :: dataLines =>
    let headerFields := splitOnL sep header
    let rows := dataLines.map (fun l => splitOnL sep l)
    if rows.all (fun r => r.length == headerFields.length) then
      Except.ok ((List.range headerFields.length).map (fun j =>
        let name : String := ⟨headerFields.getD j []⟩
        let cells := rows.map (fun r => r.getD j [])
        if cells.all (fun c => (parseNumQ c).isSome) then
          (name, ColRaw.nums (cells.map (fun c => (parseNumQ c).getD (mqI 0))))
        else
          (name, ColRaw.strs (cells.map (fun c => (⟨c⟩ : String))))))
    else Except.error PyError.parseError

/-- Lower-cased filename extension, as `Path(filename).suffix.lower()`:
the part of the final path component from its last dot, empty when there is
no dot, when the only dot is leading (hidden files), or when the dot is
final. -/
def pathSuffixLower (filename : String) : String :=
  let name := (splitOnL ['/'] filename.data).getLastD []
  match splitOnL ['.'] name with
  | [] => ⟨[]⟩
  | [_] => ⟨[]⟩
  | parts =>
    let last := parts.getLastD []
    if last.isEmpty then ⟨[]⟩
    else if parts.length == 2 && (parts.getD 0 []).isEmpty then ⟨[]⟩
    else ⟨('.' :: last).map lowerChar⟩

/-- Numeric projection and name cleaning applied on both ingestion paths:
`select(cs.numeric()).clean_names(remove_special=True, strip_underscores=
True, strip_accents=True)`. -/
def select_numeric_clean (raw : DataFrameRaw) : DataFrame :=
  ⟨raw.foldr (fun p acc =>
     match p.2 with
     | ColRaw.nums vs => (cleanName p.1, vs) :: acc
     | ColRaw.strs _ => acc) []⟩

/-- Polars `DataFrame.with_row_index()`: prepend a zero-based `index`
column; raises a `DuplicateError` when a column named `index` already
exists. -/
def with_row_index (df : DataFrame) : Except PyError DataFrame :=
  if df.cols.any (fun p => p.1 == "index") then
    Except.error (PyError.duplicateColumn ("index"))
  else
    Except.ok ⟨("index", (List.range df.height).map (fun k => mqOfNat k)) :: df.cols⟩

/-- Upload payload handed to `parse_contents`.  The source receives a
base64 data-URL string and raw bytes; in the model, `b64ok` is whether the
`contents.split(",", 1)` / `base64.b64decode` step succeeds (its failure is
caught and yields the empty frame), `text` is the total
`decode("utf-8", errors="replace")` view of the decoded bytes used by the
delimited-text path, and `excel` is the outcome of `pl.read_excel` on the
decoded bytes (`none` models any exception from the Excel reader, which is
caught). -/
structure Upload where
  b64ok : Bool
  text : String
  excel : Option DataFrameRaw

/-- Empty polars `DataFrame()`: the uniform failure result of ingestion. -/
def emptyDF : DataFrame := ⟨[]⟩

/-- The ingestion pipeline `datamodel.parse_contents(contents, filename,
skip_rows, separator)`.  Dispatch on the lower-cased filename extension;
on the delimited-text path auto-detect the separator when asked (detector
failure is caught), strip whitespace around every field, parse as CSV,
keep numeric columns and clean names; on the spreadsheet path read the
worksheet and post-process identically; any other extension yields the
empty frame.  Every error inside the `try` blocks is caught and converted
to the empty frame; the final `with_row_index` runs outside them, so its
`DuplicateError` escapes. -/
def parse_contents (contents : Upload) (filename : String) (skip_rows : Nat := 0)
    (separator : String := "auto") : Except PyError DataFrame :=
  if !contents.b64ok then Except.ok emptyDF
  else
    let suffix := pathSuffixLower filename
    if suffix == ".csv" || suffix == ".txt" || suffix == ".tsv" then
      let sepE : Except PyError String :=
        if separator == "auto" then detect_delimiter contents.text skip_rows
        else Except.ok separator
      match sepE with
      | Except.error _ => Except.ok emptyDF
      | Except.ok sep =>
        if sep.data.isEmpty then Except.ok emptyDF
        else
          let cleaned := joinListWith ['\n']
            ((pySplitlines contents.text.data).map (fun line =>
              joinListWith sep.data ((splitOnL sep.data line).map pyStrip)))
          match scan_csv cleaned skip_rows sep.data with
          | Except.error _ => Except.ok emptyDF
          | Except.ok raw => with_row_index (select_numeric_clean raw)
    else if suffix == ".xlsx" || suffix == ".xls" then
      match contents.excel with
      | none => Except.ok emptyDF
      | some raw => with_row_index (select_numeric_clean raw)
    else Except.ok emptyDF

/-! Linear fit engine (`datamodel.LinearFit` and the `scipy.stats.linregress`
call inside it). -/

/-- Result record of `scipy.stats.linregress` as stored by the source's
`LinregressResult` named tuple.  The fields `pvalue`, `stderr` and
`intercept_stderr` of the source involve the t-distribution and square
roots and are used by no claim in scope; they are not modelled.  `rvalue`
is the correlation coefficient; when its exact value is irrational the
model carries `PyF.irr`. -/
structure LinregressResult where
  slope : PyF
  intercept : PyF
  rvalue : PyF
  deriving DecidableEq

/-- Property `LinregressResult.rsquared` of the source: `rvalue ** 2`,
computed at read time. -/
def LinregressResult.rsquared (r : LinregressResult) : PyF :=
  pfMul r.rvalue r.rvalue

/-- Exact-arithmetic model of `scipy.stats.linregress(x, y)`: error on empty
or mismatched inputs and on more than one point with all x identical;
otherwise the closed-form OLS quantities from the biased covariances.
With a single point, the covariances are zero and scipy yields `nan` slope
and intercept and `r = 0.0` (its `ssxm == 0 or ssym == 0` branch); the model
reproduces that.  Scipy's final clamp of `r` into `[-1, 1]` is the identity
over exact rationals (Cauchy-Schwarz) and is omitted. -/
def linregress (xs ys : List MQ) : Except PyError LinregressResult :=
  if xs.isEmpty || ys.isEmpty then Except.error PyError.valueEmptyInput
  else if xs.length != ys.length then Except.error PyError.valueLengthMismatch
  else if decide (1 < xs.length) && xs.all (fun v => v == xs.getD 0 (mqI 0)) then
    Except.error PyError.valueIdenticalX
  else
    let n := mqOfNat xs.length
    let mx := (mqSum xs).div n
    let my := (mqSum ys).div n
    let ssxm := (mqSum (xs.map (fun v => (v.sub mx).sq))).div n
    let ssym := (mqSum (ys.map (fun v => (v.sub my).sq))).div n
    let ssxym := (mqSum ((List.zip xs ys).map (fun p => (p.1.sub mx).mul (p.2.sub my)))).div n
    let rvalue :=
      if ssxm.isZero || ssym.isZero then PyF.num (mqI 0)
      else
        let root := mqSqrtPF ((ssxym.sq).div (ssxm.mul ssym))
        if ssxym.isNeg then pfNeg root else root
    let slope := if ssxm.isZero then PyF.nan else PyF.num (ssxym.div ssxm)
    let intercept :=
      match slope with
      | PyF.num s => PyF.num (my.sub (s.mul mx))
      | _ => PyF.nan
    Except.ok ⟨slope, intercept, rvalue⟩

/-- The source's `LinearFit` dataclass after `__post_init__` has run.  The
fields appear in the declaration order of the dataclass; `fitted` models
the `"fitted"` column that `__post_init__` appends to `self.df`
(`slope * x + intercept`), carried as its own field because its entries can
be non-rational. -/
structure LinearFit where
  start_index : Nat
  end_index : Nat
  df : DataFrame
  x_name : String
  y_name : String
  y2_name : Option String
  y2_first : PyF
  y2_last : PyF
  result : LinregressResult
  x_first : MQ
  x_last : MQ
  y_first : MQ
  y_last : MQ
  fitted : List PyF
  deriving DecidableEq

/-- Constructor semantics of `LinearFit(...)`, i.e. the dataclass fields
plus `__post_init__`: fetch the x and y columns, record their boundary
values, fetch the optional secondary column and its boundary values, run
the regression, and compute the fitted line over the x data.  Every step
follows the statement order of `__post_init__`, so the first failing step
determines the escaping exception. -/
def mkLinearFit (start_index end_index : Nat) (df : DataFrame) (x_name y_name : String)
    (y2_name : Option String) : Except PyError LinearFit :=
  match df.get_column x_name with
  | Except.error e => Except.error e
  | Except.ok x_data =>
    match df.get_column y_name with
    | Except.error e => Except.error e
    | Except.ok y_data =>
      match pyItem0 x_data with
      | Except.error e => Except.error e
      | Except.ok x_first =>
        match pyItemLast x_data with
        | Except.error e => Except.error e
        | Except.ok x_last =>
          match pyItem0 y_data with
          | Except.error e => Except.error e
          | Except.ok y_first =>
            match pyItemLast y_data with
            | Except.error e => Except.error e
            | Except.ok y_last =>
              let y2E : Except PyError (PyF × PyF) :=
                match y2_name with
                | none => Except.ok (PyF.nan, PyF.nan)
                | some c =>
                  match df.get_column c with
                  | Except.error e => Except.error e
                  | Except.ok y2_data =>
                    match pyItem0 y2_data with
                    | Except.error e => Except.error e
                    | Except.ok a =>
                      match pyItemLast y2_data with
                      | Except.error e => Except.error e
                      | Except.ok b => Except.ok (PyF.num a, PyF.num b)
              match y2E with
              | Except.error e => Except.error e
              | Except.ok (y2_first, y2_last) =>
                match linregress x_data y_data with
                | Except.error e => Except.error e
                | Except.ok res =>
                  Except.ok ⟨start_index, end_index, df, x_name, y_name, y2_name,
                    y2_first, y2_last, res, x_first, x_last, y_first, y_last,
                    x_data.map (fun v => pfAdd (pfMul res.slope (PyF.num v)) res.intercept)⟩

/-- Property `LinearFit.x_data`: the x column of the stored frame (always
present on a constructed fit). -/
def LinearFit.x_data (f : LinearFit) : List MQ :=
  match f.df.get_column f.x_name with
  | Except.ok vs => vs
  | Except.error _ => []

/-- Property `LinearFit.y_fitted`: the fitted line (the `"fitted"` column
appended by `__post_init__`). -/
def LinearFit.y_fitted (f : LinearFit) : List PyF := f.fitted

/-- Property `LinearFit.y2_mean`: mean of the secondary column over the
slice, `nan` when there is none. -/
def LinearFit.y2_mean (f : LinearFit) : PyF :=
  match f.y2_name with
  | none => PyF.nan
  | some c =>
    match f.df.get_column c with
    | Except.ok vs =>
      if vs.isEmpty then PyF.nan
      else PyF.num ((mqSum vs).div (mqOfNat vs.length))
    | Except.error _ => PyF.nan

/-- Property `LinearFit.rsquared`: `self.result.rvalue ** 2`, computed at
read time and never stored. -/
def LinearFit.rsquared (f : LinearFit) : PyF :=
  pfMul f.result.rvalue f.result.rvalue

/-- One row of the results table (`server.result_df_schema`): the flat
record produced by `LinearFit.make_result`. -/
structure ResultRow where
  source_file : String
  start_index : Nat
  end_index : Nat
  slope : PyF
  rsquared : PyF
  y2_mean : PyF
  x_name : String
  x_first : PyF
  x_last : PyF
  y_name : String
  y_first : PyF
  y_last : PyF
  y2_name : Option String
  y2_first : PyF
  y2_last : PyF
  deriving DecidableEq

/-- The source's `LinearFit.make_result(source_file)`: flatten the fit into
one row of the results table. -/
def LinearFit.make_result (f : LinearFit) (source_file : String) : ResultRow :=
  ⟨source_file, f.start_index, f.end_index, f.result.slope, f.rsquared, f.y2_mean,
   f.x_name, PyF.num f.x_first, PyF.num f.x_last,
   f.y_name, PyF.num f.y_first, PyF.num f.y_last,
   f.y2_name, f.y2_first, f.y2_last⟩

/-! Overlay construction (`visualization.make_fit_trace`) and the fit
callbacks of `server.py`. -/

/-- Overlay trace of one fit (`go.Scattergl`).  `hover_slope`,
`hover_rsq` and `hover_y2` are the values interpolated into the hover
text `"start_index=... slope=... r^2=... y2_mean=..."`; in particular
`hover_rsq` is `rsquared ** 2` because the format string squares the
`rsquared` argument. -/
structure FitTrace where
  x : List MQ
  y : List PyF
  name : String
  hover_start : Nat
  hover_slope : PyF
  hover_rsq : PyF
  hover_y2 : PyF
  deriving DecidableEq

/-- The source's `visualization.make_fit_trace(x, y_fitted, name, slope,
rsquared, start_index, y2_mean)`: the line trace whose hover text shows
`start_index`, `slope`, `rsquared ** 2` (the format string squares the
argument) and the secondary mean after `y2_mean = y2_mean or float("nan")`,
which replaces a falsy value (`None` or `0.0`) by `nan`. -/
def make_fit_trace (x : List MQ) (y_fitted : List PyF) (name : String) (slope : PyF)
    (rsquared : PyF) (start_index : Nat) (y2_mean : Option PyF := none) : FitTrace :=
  let y2v : PyF :=
    match y2_mean with
    | none => PyF.nan
    | some v => if pfTruthy v then v else PyF.nan
  ⟨x, y_fitted, name, start_index, slope, pfMul rsquared rsquared, y2v⟩

/-- Ordering key used by `result_df.sort("source_file", "start_index")`:
lexicographic on the file name (bytewise), then the start index. -/
def rowLe (a b : ResultRow) : Bool :=
  lexLt a.source_file.data b.source_file.data
  || (a.source_file == b.source_file && Nat.ble a.start_index b.start_index)

/-- One selected scatter point as delivered by Dash `selectedData`
(`datamodel.SelectedPoint`; `customdata` never occurs in the frames in
scope). -/
structure SelPoint where
  curveNumber : Nat
  pointNumber : Nat
  pointIndex : Nat
  x : MQ
  y : MQ

/-- Row of the selection frame built inside `add_fit` (columns `index`,
x, y and the optional secondary y). -/
structure SelRow where
  idx : Nat
  xv : MQ
  yv : MQ
  y2v : Option MQ

/-- The fit callback `server.add_fit` (after its `PreventUpdate` guards):
build the selection frame from the points of curve 0 (plus the y values of
curve 1 when a secondary column is chosen, which must be equally many or
polars raises a shape error), sort it by point index, fit over it, extend
and re-sort the results table, and emit the overlay trace.  Its
`make_fit_trace` call passes `rsquared=fit.result.rvalue`. -/
def add_fit (selected : List SelPoint) (x_name y_name : String) (y2_name : Option String)
    (filename : String) (results : List ResultRow) :
    Except PyError (FitTrace × List ResultRow) :=
  let c0 := selected.filter (fun p => p.curveNumber == 0)
  let builtE : Except PyError (List SelRow) :=
    match y2_name with
    | none => Except.ok (c0.map (fun p => ⟨p.pointIndex, p.x, p.y, none⟩))
    | some _ =>
      let c1 := selected.filter (fun p => p.curveNumber == 1)
      if c1.length != c0.length then Except.error PyError.shapeMismatch
      else Except.ok ((List.zip c0 c1).map (fun p => ⟨p.1.pointIndex, p.1.x, p.1.y, some p.2.y⟩))
  match builtE with
  | Except.error e => Except.error e
  | Except.ok built =>
    let rows := stableSortLe (fun a b => Nat.ble a.idx b.idx) built
    match rows with
    | [] => Except.error PyError.outOfBounds
    | r0 :: _ =>
      let start := r0.idx
      let stop := (rows.getLastD r0).idx
      let baseCols := [("index", rows.map (fun r => mqOfNat r.idx)),
                       (x_name, rows.map (fun r => r.xv)),
                       (y_name, rows.map (fun r => r.yv))]
      let fit_df : DataFrame :=
        match y2_name with
        | none => ⟨baseCols⟩
        | some y2n => ⟨baseCols ++ [(y2n, rows.map (fun r => r.y2v.getD (mqI 0)))]⟩
      match mkLinearFit start stop fit_df x_name y_name y2_name with
      | Except.error e => Except.error e
      | Except.ok fit =>
        let result_rows := stableSortLe rowLe (results ++ [fit.make_result filename])
        let tr := make_fit_trace fit.x_data fit.y_fitted
          (filename ++ "_" ++ toString start) fit.result.slope fit.result.rvalue
          start (some fit.y2_mean)
        Except.ok (tr, result_rows)

/-- The fit-request composition used by `server.make_plot` for each stored
record, which is also the `fit(table, start, end, ...)` contract of the
specification: slice the active table to the inclusive index range
(`parsed.slice(start, stop - start + 1)`) and construct a `LinearFit` over
the slice. -/
def fit_request (table : DataFrame) (start stop : Nat) (x_name y_name : String)
    (y2_name : Option String) : Except PyError LinearFit :=
  match table.slice start ((stop : Int) - (start : Int) + 1) with
  | Except.error e => Except.error e
  | Except.ok fit_df => mkLinearFit start stop fit_df x_name y_name y2_name

/-- The per-record overlay re-derivation of `server.make_plot`: for a
stored results row matching the current file, re-run the fit over the
current table using the record's stored indices and the *currently
selected* dropdown columns, then build the trace.  Its `make_fit_trace`
call passes `rsquared=fit.rsquared`. -/
def make_plot_overlay (parsed : DataFrame) (x_name y_name : String) (y2_name : Option String)
    (filename : String) (row : ResultRow) : Except PyError FitTrace :=
  let start := row.start_index
  let stop := row.end_index
  match fit_request parsed start stop x_name y_name y2_name with
  | Except.error e => Except.error e
  | Except.ok fit =>
    Except.ok (make_fit_trace fit.x_data fit.y_fitted
      (filename ++ "_" ++ toString start) fit.result.slope fit.rsquared
      start (some fit.y2_mean))

/-! Review-marker store (`datamodel.GlobalState.mark_file`). -/

/-- The `marked_files` frame: one `(source_file_cleaned, status)` row per
entry.  The surrounding IPC write/read round-trip of `mark_file` is
value-preserving and not modelled. -/
structure MarkerStore where
  rows : List (String × String)
  deriving DecidableEq

/-- The source's `GlobalState.mark_file`: `marked_files.update(temp_df,
on="source_file_cleaned", how="left")` with a one-row frame carrying the
new status.  A left update rewrites the status of every existing row whose
key matches and drops unmatched rows of the update frame: rows for new
keys are not inserted. -/
def mark_file (store : MarkerStore) (source_file_cleaned status : String) : MarkerStore :=
  ⟨store.rows.map (fun r => if r.1 == source_file_cleaned then (r.1, status) else r)⟩

/-- Two-point table used to instantiate general fit theorems on a concrete
input. -/
def fitWitnessTable : DataFrame := ⟨[("x", [mqI 0, mqI 1]), ("y", [mqI 0, mqI 1])]⟩

/-- The fit computed by `fit_request fitWitnessTable 0 1 "x" "y" none`,
written out as a literal. -/
def fitWitnessFit : LinearFit :=
  ⟨0, 1, fitWitnessTable, "x", "y", none, PyF.nan, PyF.nan,
   ⟨PyF.num (mqI 1), PyF.num (mqI 0), PyF.num (mqI 1)⟩,
   mqI 0, mqI 1, mqI 0, mqI 1, [PyF.num (mqI 0), PyF.num (mqI 1)]⟩

/-- Failure test for `Except` values. -/
def Except.isErr {ε α : Type} : Except ε α → Bool
  | Except.error _ => true
  | Except.ok _ => false

/-- Projection of a `LinearFit` to the parts that do not depend on the
stored `start_index`/`end_index` metadata: the fitted frame, the regression
result and the fitted line. -/
def fitCore (f : LinearFit) : DataFrame × LinregressResult × List PyF :=
  (f.df, f.result, f.fitted)

/-! General lemmas about the stable insertion sort and the row ordering. -/

theorem mem_insertLe {α : Type} (le : α → α → Bool) (x : α) :
    ∀ (l : List α) (y : α), y ∈ insertLe le x l ↔ y = x ∨ y ∈ l := by
  intro l
  induction l with
  | nil => intro y; simp [insertLe]
  | cons a as ih =>
    intro y
    by_cases h : le a x = true
    · rw [insertLe, if_pos h]
      simp only [List.mem_cons, ih]
      tauto
    · rw [insertLe, if_neg h]
      simp [List.mem_cons]

theorem pairwise_insertLe {α : Type} (le : α → α → Bool)
    (htrans : ∀ a b c, le a b = true → le b c = true → le a c = true)
    (htot : ∀ a b, le a b = true ∨ le b a = true) (x : α) :
    ∀ l : List α, l.Pairwise (fun a b => le a b = true) →
      (insertLe le x l).Pairwise (fun a b => le a b = true) := by
  intro l
  induction l with
  | nil => intro _; simp [insertLe]
  | cons a as ih =>
    intro hp
    rw [List.pairwise_cons] at hp
    by_cases h : le a x = true
    · simp only [insertLe, h, if_pos]
      rw [List.pairwise_cons]
      refine ⟨?_, ih hp.2⟩
      intro y hy
      rcases (mem_insertLe le x as y).mp hy with hy1 | hy2
      · exact hy1 ▸ h
      · exact hp.1 y hy2
    · simp only [insertLe, h, if_neg, Bool.not_eq_true]
      rw [List.pairwise_cons]
      have hxa : le x a = true := by
        rcases htot a x with h1 | h2
        · exact absurd h1 h
        · exact h2
      refine ⟨?_, List.pairwise_cons.mpr hp⟩
      intro y hy
      rcases List.mem_cons.mp hy with hy1 | hy2
      · exact hy1 ▸ hxa
      · exact htrans x a y hxa (hp.1 y hy2)

theorem pairwise_foldl_insertLe {α : Type} (le : α → α → Bool)
    (htrans : ∀ a b c, le a b = true → le b c = true → le a c = true)
    (htot : ∀ a b, le a b = true ∨ le b a = true) :
    ∀ (l acc : List α), acc.Pairwise (fun a b => le a b = true) →
      (l.foldl (fun acc x => insertLe le x acc) acc).Pairwise (fun a b => le a b = true) := by
  intro l
  induction l with
  | nil => intro acc h; exact h
  | cons a as ih =>
    intro acc h
    exact ih (insertLe le a acc) (pairwise_insertLe le htrans htot a acc h)

theorem pairwise_stableSortLe {α : Type} (le : α → α → Bool)
    (htrans : ∀ a b c, le a b = true → le b c = true → le a c = true)
    (htot : ∀ a b, le a b = true ∨ le b a = true) (l : List α) :
    (stableSortLe le l).Pairwise (fun a b => le a b = true) :=
  pairwise_foldl_insertLe le htrans htot l [] (List.Pairwise.nil)

theorem charLt_connex {a b : Char} (h1 : charLt a b = false) (h2 : charLt b a = false) :
    a = b := by
  simp only [charLt, decide_eq_false_iff_not, Nat.not_lt] at h1 h2
  have hv : a.val = b.val := UInt32.ext (Nat.le_antisymm h2 h1)
  exact Char.ext hv

theorem charLt_trans {a b c : Char} (h1 : charLt a b = true) (h2 : charLt b c = true) :
    charLt a c = true := by
  simp only [charLt, decide_eq_true_eq] at h1 h2 ⊢
  exact Nat.lt_trans h1 h2

theorem lexLt_trans : ∀ {x y z : List Char},
    lexLt x y = true → lexLt y z = true → lexLt x z = true := by
  intro x
  induction x with
  | nil =>
    intro y z h1 h2
    cases y with
    | nil => exact absurd h1 (by simp [lexLt])
    | cons b bs =>
      cases z with
      | nil => exact absurd h2 (by simp [lexLt])
      | cons c cs => simp [lexLt]
  | cons a as ih =>
    intro y z h1 h2
    cases y with
    | nil => exact absurd h1 (by simp [lexLt])
    | cons b bs =>
      cases z with
      | nil => exact absurd h2 (by simp [lexLt])
      | cons c cs =>
        simp only [lexLt, Bool.or_eq_true, Bool.and_eq_true, beq_iff_eq] at h1 h2 ⊢
        rcases h1 with h1 | ⟨hab, h1⟩
        · rcases h2 with h2 | ⟨hbc, h2⟩
          · exact Or.inl (charLt_trans h1 h2)
          · exact Or.inl (hbc ▸ h1)
        · rcases h2 with h2 | ⟨hbc, h2⟩
          · exact Or.inl (hab ▸ h2)
          · exact Or.inr ⟨hab.trans hbc, ih h1 h2⟩

theorem lexLt_connex : ∀ {x y : List Char},
    lexLt x y = false → lexLt y x = false → x = y := by
  intro x
  induction x with
  | nil =>
    intro y h1 _
    cases y with
    | nil => rfl
    | cons b bs => exact absurd h1 (by simp [lexLt])
  | cons a as ih =>
    intro y h1 h2
    cases y with
    | nil => exact absurd h2 (by simp [lexLt])
    | cons b bs =>
      simp only [lexLt, Bool.or_eq_false_iff, Bool.and_eq_false_iff] at h1 h2
      have hab : a = b := charLt_connex h1.1 h2.1
      subst hab
      rcases h1.2 with h1 | h1
      · simp at h1
      · rcases h2.2 with h2 | h2
        · simp at h2
        · exact congrArg (a :: ·) (ih h1 h2)

theorem rowLe_trans : ∀ a b c : ResultRow,
    rowLe a b = true → rowLe b c = true → rowLe a c = true := by
  intro a b c h1 h2
  simp only [rowLe, Bool.or_eq_true, Bool.and_eq_true, beq_iff_eq, Nat.ble_eq] at h1 h2 ⊢
  rcases h1 with h1 | ⟨hab, h1⟩
  · rcases h2 with h2 | ⟨hbc, h2⟩
    · exact Or.inl (lexLt_trans h1 h2)
    · exact Or.inl (hbc ▸ h1)
  · rcases h2 with h2 | ⟨hbc, h2⟩
    · exact Or.inl (by rw [hab]; exact h2)
    · exact Or.inr ⟨hab.trans hbc, Nat.le_trans h1 h2⟩

theorem rowLe_total : ∀ a b : ResultRow, rowLe a b = true ∨ rowLe b a = true := by
  intro a b
  by_cases h1 : lexLt a.source_file.data b.source_file.data = true
  · exact Or.inl (by simp [rowLe, h1])
  · by_cases h2 : lexLt b.source_file.data a.source_file.data = true
    · exact Or.inr (by simp [rowLe, h2])
    · have hd : a.source_file.data = b.source_file.data :=
        lexLt_connex (Bool.not_eq_true _ ▸ h1 : _) (Bool.not_eq_true _ ▸ h2 : _)
      have hs : a.source_file = b.source_file := String.ext hd
      rcases Nat.le_total a.start_index b.start_index with hle | hle
      · exact Or.inl (by simp [rowLe, hs, Nat.ble_eq, hle])
      · exact Or.inr (by simp [rowLe, hs, Nat.ble_eq, hle])

/-! Helper lemmas about the ingestion pipeline. -/

theorem with_row_index_cases (df : DataFrame) :
    (with_row_index df).isOk = true
    ∨ with_row_index df = Except.error (PyError.duplicateColumn ("index")) := by
  unfold with_row_index
  by_cases h : df.cols.any (fun p => p.1 == "index") = true
  · exact Or.inr (by rw [if_pos h])
  · exact Or.inl (by rw [if_neg h]; rfl)

theorem with_row_index_ok {df r : DataFrame} (h : with_row_index df = Except.ok r) :
    r.cols = ("index", (List.range df.height).map (fun k => mqOfNat k)) :: df.cols
    ∧ ∀ p ∈ df.cols, p.1 ≠ "index" := by
  unfold with_row_index at h
  by_cases hdup : df.cols.any (fun p => p.1 == "index") = true
  · rw [if_pos hdup] at h
    exact absurd h (by simp)
  · rw [if_neg hdup] at h
    have hr : r = ⟨("index", (List.range df.height).map (fun k => mqOfNat k)) :: df.cols⟩ := by
      cases h; rfl
    subst hr
    refine ⟨rfl, ?_⟩
    intro p hp hname
    exact hdup (List.any_eq_true.mpr ⟨p, hp, by simp [hname]⟩)

theorem get_column_error_of_not_mem {df : DataFrame} {x : String} (h : x ∉ df.colNames) :
    df.get_column x = Except.error (PyError.columnNotFound x) := by
  unfold DataFrame.get_column
  have : df.cols.find? (fun p => p.1 == x) = none := by
    rw [List.find?_eq_none]
    intro p hp hbeq
    exact h (List.mem_map.mpr ⟨p, hp, beq_iff_eq.mp hbeq⟩)
  rw [this]

theorem get_column_ok_mem {df : DataFrame} {x : String} {vs : List MQ}
    (h : df.get_column x = Except.ok vs) : ∃ p ∈ df.cols, p.2 = vs := by
  unfold DataFrame.get_column at h
  cases hf : df.cols.find? (fun p => p.1 == x) with
  | none => rw [hf] at h; exact absurd h (by simp)
  | some p =>
    rw [hf] at h
    cases h
    exact ⟨p, List.mem_of_find?_eq_some hf, rfl⟩

theorem mkLinearFit_isErr_of_empty_cols {df : DataFrame} (s e : Nat) (x y : String)
    (y2 : Option String) (hempty : ∀ p ∈ df.cols, p.2 = []) :
    (mkLinearFit s e df x y y2).isErr = true := by
  unfold mkLinearFit
  cases hx : df.get_column x with
  | error _ => rfl
  | ok x_data =>
    have hxe : x_data = [] := by
      obtain ⟨p, hp, hpv⟩ := get_column_ok_mem hx
      rw [← hpv]; exact hempty p hp
    cases hy : df.get_column y with
    | error _ => rfl
    | ok y_data =>
      subst hxe
      rfl

theorem mkLinearFit_isErr_of_missing_col {df : DataFrame} (s e : Nat) (x y : String)
    (y2 : Option String) (c : String)
    (hmiss : x ∉ df.colNames ∨ y ∉ df.colNames ∨ (y2 = some c ∧ c ∉ df.colNames)) :
    (mkLinearFit s e df x y y2).isErr = true := by
  unfold mkLinearFit
  rcases hmiss with hx | hy | ⟨hy2, hc⟩
  · rw [get_column_error_of_not_mem hx]
    rfl
  · cases hgx : df.get_column x with
    | error _ => rfl
    | ok x_data =>
      rw [get_column_error_of_not_mem hy]
      rfl
  · subst hy2
    cases hgx : df.get_column x with
    | error _ => rfl
    | ok x_data =>
      cases hgy : df.get_column y with
      | error _ => rfl
      | ok y_data =>
        dsimp only
        cases h0x : pyItem0 x_data with
        | error _ => rfl
        | ok x_first =>
          dsimp only
          cases hlx : pyItemLast x_data with
          | error _ => rfl
          | ok x_last =>
            dsimp only
            cases h0y : pyItem0 y_data with
            | error _ => rfl
            | ok y_first =>
              dsimp only
              cases hly : pyItemLast y_data with
              | error _ => rfl
              | ok y_last =>
                dsimp only
                rw [get_column_error_of_not_mem hc]
                rfl

theorem slice_error_of_neg (df : DataFrame) (off : Nat) {len : Int} (h : len < 0) :
    df.slice off len = Except.error PyError.negativeSlice := by
  unfold DataFrame.slice
  rw [if_pos h]

theorem slice_ok_of_nonneg (df : DataFrame) (off : Nat) {len : Int} (h : ¬len < 0) :
    df.slice off len = Except.ok ⟨df.cols.map (fun p => (p.1, (p.2.drop off).take len.toNat))⟩ := by
  unfold DataFrame.slice
  rw [if_neg h]

theorem colNames_slice_map (df : DataFrame) (off : Nat) (len : Int) :
    (DataFrame.mk (df.cols.map (fun p => (p.1, (p.2.drop off).take len.toNat)))).colNames
      = df.colNames := by
  unfold DataFrame.colNames
  rw [List.map_map]
  rfl

theorem fit_request_isErr_of_missing_col (table : DataFrame) (start stop : Nat)
    (x y : String) (y2 : Option String) (c : String)
    (hmiss : x ∉ table.colNames ∨ y ∉ table.colNames ∨ (y2 = some c ∧ c ∉ table.colNames)) :
    (fit_request table start stop x y y2).isErr = true := by
  unfold fit_request
  by_cases hneg : ((stop : Int) - (start : Int) + 1) < 0
  · rw [slice_error_of_neg table start hneg]
    rfl
  · rw [slice_ok_of_nonneg table start hneg]
    dsimp only
    apply mkLinearFit_isErr_of_missing_col _ _ _ _ _ c
    rw [colNames_slice_map]
    exact hmiss

theorem fit_request_isErr_of_bad_range (table : DataFrame) (start stop : Nat)
    (x y : String) (y2 : Option String) (hwf : table.wfB = true)
    (h : stop < start ∨ table.height ≤ start) :
    (fit_request table start stop x y y2).isErr = true := by
  unfold fit_request
  by_cases hneg : ((stop : Int) - (start : Int) + 1) < 0
  · rw [slice_error_of_neg table start hneg]
    rfl
  · rw [slice_ok_of_nonneg table start hneg]
    dsimp only
    apply mkLinearFit_isErr_of_empty_cols
    intro p hp
    obtain ⟨q, hq, hqe⟩ := List.mem_map.mp hp
    have hq2 : p.2 = (q.2.drop start).take ((stop : Int) - (start : Int) + 1).toNat := by
      rw [← hqe]
    rcases h with h | h
    · have hz : ((stop : Int) - (start : Int) + 1).toNat = 0 := by omega
      rw [hq2, hz, List.take_zero]
    · have hlen : q.2.length = table.height :=
        beq_iff_eq.mp ((List.all_eq_true.mp hwf) q hq)
      have hnil : q.2.drop start = [] := List.drop_eq_nil_of_le (by omega)
      rw [hq2, hnil, List.take_nil]

theorem mkLinearFit_core_congr (s e s2 e2 : Nat) (d : DataFrame) (x y : String)
    (y2 : Option String) :
    Except.map fitCore (mkLinearFit s e d x y y2)
      = Except.map fitCore (mkLinearFit s2 e2 d x y y2) := by
  unfold mkLinearFit
  cases d.get_column x with
  | error _ => rfl
  | ok x_data =>
    cases d.get_column y with
    | error _ => rfl
    | ok y_data =>
      dsimp only
      cases pyItem0 x_data with
      | error _ => rfl
      | ok x_first =>
        dsimp only
        cases pyItemLast x_data with
        | error _ => rfl
        | ok x_last =>
          dsimp only
          cases pyItem0 y_data with
          | error _ => rfl
          | ok y_first =>
            dsimp only
            cases pyItemLast y_data with
            | error _ => rfl
            | ok y_last =>
              dsimp only
              cases y2 with
              | none =>
                dsimp only
                cases linregress x_data y_data with
                | error _ => rfl
                | ok res => rfl
              | some c =>
                dsimp only
                cases d.get_column c with
                | error _ => rfl
                | ok y2_data =>
                  dsimp only
                  cases pyItem0 y2_data with
                  | error _ => rfl
                  | ok a =>
                    dsimp only
                    cases pyItemLast y2_data with
                    | error _ => rfl
                    | ok b =>
                      dsimp only
                      cases linregress x_data y_data with
                      | error _ => rfl
                      | ok res => rfl

theorem fit_request_truncates (table : DataFrame) (start stop : Nat) (x y : String)
    (y2 : Option String) (hwf : table.wfB = true) (h1 : start ≤ stop)
    (h2 : start < table.height) (h3 : table.height ≤ stop) :
    Except.map fitCore (fit_request table start stop x y y2)
      = Except.map fitCore (fit_request table start (table.height - 1) x y y2) := by
  have hn1 : ¬((stop : Int) - (start : Int) + 1) < 0 := by omega
  have hn2 : ¬(((table.height - 1 : Nat) : Int) - (start : Int) + 1) < 0 := by omega
  have hslice : table.slice start ((stop : Int) - (start : Int) + 1)
      = table.slice start (((table.height - 1 : Nat) : Int) - (start : Int) + 1) := by
    rw [slice_ok_of_nonneg table start hn1, slice_ok_of_nonneg table start hn2]
    have hmap : table.cols.map
          (fun p => (p.1, (p.2.drop start).take ((stop : Int) - (start : Int) + 1).toNat))
        = table.cols.map
          (fun p => (p.1, (p.2.drop start).take
            ((((table.height - 1 : Nat) : Int) - (start : Int) + 1)).toNat)) := by
      apply List.map_congr_left
      intro q hq
      have hlen : q.2.length = table.height :=
        beq_iff_eq.mp ((List.all_eq_true.mp hwf) q hq)
      have hd : (q.2.drop start).length = table.height - start := by
        rw [List.length_drop, hlen]
      rw [List.take_of_length_le (by omega), List.take_of_length_le (by omega)]
    rw [hmap]
  unfold fit_request
  rw [hslice]
  cases table.slice start (((table.height - 1 : Nat) : Int) - (start : Int) + 1) with
  | error _ => rfl
  | ok d => exact mkLinearFit_core_congr start stop start (table.height - 1) d x y y2

/-! Claim theorems. -/

/-- C1 (counterexample).  Ingestion is claimed never to raise past its
boundary, but `df.with_row_index()` runs outside the `try` blocks: a CSV
upload whose data has a numeric column named `index` makes polars raise a
`DuplicateError` that escapes `parse_contents`. -/
theorem parse_contents_duplicate_index_counterexample :
    parse_contents ⟨true, "index,value\n1,2\n", none⟩ ("data.csv") 0 ","
      = Except.error (PyError.duplicateColumn ("index")) := by decide

/-- C1 (amended).  For every upload, filename, skip count and separator,
`parse_contents` either returns a frame (the empty frame on any caught
decode/detect/parse error and on unsupported extensions) or raises exactly
the duplicate-`index`-column error of the final `with_row_index`, which is
the one step outside the error handling. -/
theorem parse_contents_ok_or_duplicate_index (contents : Upload) (filename : String)
    (skip_rows : Nat) (separator : String) :
    (parse_contents contents filename skip_rows separator).isOk = true
    ∨ parse_contents contents filename skip_rows separator
        = Except.error (PyError.duplicateColumn ("index")) := by
  unfold parse_contents
  dsimp only
  repeat' split
  all_goals first
    | exact Or.inl rfl
    | exact with_row_index_cases _

/-- C2 (counterexample).  The claim says a fit request whose `end_index`
does not address an existing row fails with a range error; in the code the
slice is clamped instead: on a 3-row table, a request for rows 1..10
succeeds. -/
theorem fit_request_out_of_range_end_succeeds :
    (fit_request ⟨[("x", [mqI 0, mqI 1, mqI 2]), ("y", [mqI 0, mqI 1, mqI 4])]⟩
        1 10 ("x") ("y") none).isOk = true
    ∧ (DataFrame.mk [("x", [mqI 0, mqI 1, mqI 2]), ("y", [mqI 0, mqI 1, mqI 4])]).height = 3 := by
  decide

/-- C2 (amended).  On a well-formed table: a fit request with an unknown
x/y/y2 column fails uncaught (polars column-not-found); a request with
`start_index > end_index` or `start_index` beyond the last row fails
uncaught (an out-of-bounds/negative-slice error - no dedicated
`InvalidRangeError`/`UnknownColumnError` types exist in the code); but an
`end_index` beyond the last row is not rejected: the slice is truncated and
the fit proceeds exactly as if `end_index` were the last row (only the
stored `end_index` metadata keeps the requested value). -/
theorem fit_request_precondition_behavior (table : DataFrame) (start stop : Nat)
    (x y : String) (y2 : Option String) (c : String) (hwf : table.wfB = true) :
    ((x ∉ table.colNames ∨ y ∉ table.colNames ∨ (y2 = some c ∧ c ∉ table.colNames)) →
        (fit_request table start stop x y y2).isErr = true)
    ∧ ((stop < start ∨ table.height ≤ start) →
        (fit_request table start stop x y y2).isErr = true)
    ∧ (start ≤ stop → start < table.height → table.height ≤ stop →
        Except.map fitCore (fit_request table start stop x y y2)
          = Except.map fitCore (fit_request table start (table.height - 1) x y y2)) :=
  ⟨fun h => fit_request_isErr_of_missing_col table start stop x y y2 c h,
   fun h => fit_request_isErr_of_bad_range table start stop x y y2 hwf h,
   fun h1 h2 h3 => fit_request_truncates table start stop x y y2 hwf h1 h2 h3⟩

/-- C2 (witness). -/
theorem fit_request_precondition_behavior_witness :
    (DataFrame.mk [("x", [mqI 0, mqI 1]), ("y", [mqI 3, mqI 4])]).wfB = true
    ∧ ((("x" : String) ∉ (DataFrame.mk [("x", [mqI 0, mqI 1]), ("y", [mqI 3, mqI 4])]).colNames
          ∨ ("y" : String) ∉ (DataFrame.mk [("x", [mqI 0, mqI 1]), ("y", [mqI 3, mqI 4])]).colNames
          ∨ ((none : Option String) = some "z"
              ∧ ("z" : String) ∉ (DataFrame.mk [("x", [mqI 0, mqI 1]), ("y", [mqI 3, mqI 4])]).colNames)) →
        (fit_request ⟨[("x", [mqI 0, mqI 1]), ("y", [mqI 3, mqI 4])]⟩ 0 1 ("x") ("y") none).isErr = true)
    ∧ ((1 < 0 ∨ (DataFrame.mk [("x", [mqI 0, mqI 1]), ("y", [mqI 3, mqI 4])]).height ≤ 0) →
        (fit_request ⟨[("x", [mqI 0, mqI 1]), ("y", [mqI 3, mqI 4])]⟩ 0 1 ("x") ("y") none).isErr = true)
    ∧ (0 ≤ 1 → 0 < (DataFrame.mk [("x", [mqI 0, mqI 1]), ("y", [mqI 3, mqI 4])]).height →
        (DataFrame.mk [("x", [mqI 0, mqI 1]), ("y", [mqI 3, mqI 4])]).height ≤ 1 →
        Except.map fitCore
            (fit_request ⟨[("x", [mqI 0, mqI 1]), ("y", [mqI 3, mqI 4])]⟩ 0 1 ("x") ("y") none)
          = Except.map fitCore
            (fit_request ⟨[("x", [mqI 0, mqI 1]), ("y", [mqI 3, mqI 4])]⟩ 0
              ((DataFrame.mk [("x", [mqI 0, mqI 1]), ("y", [mqI 3, mqI 4])]).height - 1)
              ("x") ("y") none)) :=
  ⟨by decide,
   fit_request_precondition_behavior ⟨[("x", [mqI 0, mqI 1]), ("y", [mqI 3, mqI 4])]⟩
     0 1 ("x") ("y") none ("z") (by decide)⟩

/-- C3 (code bug evaluation).  Re-deriving a stored fit in `make_plot`
produces the same overlay geometry as the original `add_fit` overlay, but a
different displayed r-squared: `make_fit_trace` squares its `rsquared`
argument, `add_fit` passes `fit.result.rvalue` (display r^2 = 9/25 here)
while `make_plot` passes `fit.rsquared` (display (r^2)^2 = 81/625). -/
theorem make_plot_rederival_double_squares_rsquared :
    Except.map (fun p => (p.1.x, p.1.y, p.1.hover_rsq, p.2))
      (add_fit [⟨0, 0, 0, mqI (-3), mqI (-1)⟩, ⟨0, 1, 1, mqI (-1), mqI (-3)⟩,
                ⟨0, 2, 2, mqI 1, mqI 3⟩, ⟨0, 3, 3, mqI 3, mqI 1⟩]
        ("t") ("o") none ("f.csv") [])
    = Except.ok ([mqI (-3), mqI (-1), mqI 1, mqI 3],
        [PyF.num (mq (-9) 5), PyF.num (mq (-3) 5), PyF.num (mq 3 5), PyF.num (mq 9 5)],
        PyF.num (mq 9 25),
        [⟨"f.csv", 0, 3, PyF.num (mq 3 5), PyF.num (mq 9 25), PyF.nan, "t",
          PyF.num (mqI (-3)), PyF.num (mqI 3), "o", PyF.num (mqI (-1)), PyF.num (mqI 1),
          none, PyF.nan, PyF.nan⟩])
    ∧ Except.map (fun tr => (tr.x, tr.y, tr.hover_rsq))
        (make_plot_overlay ⟨[("t", [mqI (-3), mqI (-1), mqI 1, mqI 3]),
                             ("o", [mqI (-1), mqI (-3), mqI 3, mqI 1])]⟩
          ("t") ("o") none ("f.csv")
          ⟨"f.csv", 0, 3, PyF.num (mq 3 5), PyF.num (mq 9 25), PyF.nan, "t",
           PyF.num (mqI (-3)), PyF.num (mqI 3), "o", PyF.num (mqI (-1)), PyF.num (mqI 1),
           none, PyF.nan, PyF.nan⟩)
      = Except.ok ([mqI (-3), mqI (-1), mqI 1, mqI 3],
          [PyF.num (mq (-9) 5), PyF.num (mq (-3) 5), PyF.num (mq 3 5), PyF.num (mq 9 5)],
          PyF.num (mq 81 625))
    ∧ PyF.num (mq 9 25) ≠ PyF.num (mq 81 625) := by
  refine ⟨by decide, by decide, by decide⟩

/-- Structure of a successful `add_fit` result: the returned results table
is the sorted extension of the incoming one by the new record. -/
theorem add_fit_ok_results {selected : List SelPoint} {x_name y_name : String}
    {y2_name : Option String} {filename : String} {results : List ResultRow}
    {out : FitTrace × List ResultRow}
    (h : add_fit selected x_name y_name y2_name filename results = Except.ok out) :
    ∃ r, out.2 = stableSortLe rowLe (results ++ [r]) := by
  unfold add_fit at h
  dsimp only at h
  repeat' split at h
  all_goals first
    | (cases h; exact ⟨_, rfl⟩)
    | cases h

/-- C4.  After any add operation (hence after any sequence of them), the
results table returned by `add_fit` is sorted by `(source_file,
start_index)` ascending: every successful call re-establishes the order by
sorting the extended table. -/
theorem add_fit_results_sorted (selected : List SelPoint) (x_name y_name : String)
    (y2_name : Option String) (filename : String) (results : List ResultRow)
    (out : FitTrace × List ResultRow)
    (h : add_fit selected x_name y_name y2_name filename results = Except.ok out) :
    List.Pairwise (fun a b => rowLe a b = true) out.2 := by
  obtain ⟨r, hr⟩ := add_fit_ok_results h
  rw [hr]
  exact pairwise_stableSortLe rowLe rowLe_trans rowLe_total _

/-- C4 (witness). -/
theorem add_fit_results_sorted_witness :
    List.Pairwise (fun a b => rowLe a b = true)
      [⟨"w.csv", 0, 1, PyF.num (mqI 2), PyF.num (mqI 1), PyF.nan, "x", PyF.num (mqI 0),
        PyF.num (mqI 1), "y", PyF.num (mqI 0), PyF.num (mqI 2), none, PyF.nan, PyF.nan⟩] :=
  add_fit_results_sorted [⟨0, 0, 0, mqI 0, mqI 0⟩, ⟨0, 1, 1, mqI 1, mqI 2⟩]
    ("x") ("y") none ("w.csv") []
    (⟨[mqI 0, mqI 1], [PyF.num (mqI 0), PyF.num (mqI 2)], "w.csv_0", 0, PyF.num (mqI 2),
      PyF.num (mqI 1), PyF.nan⟩,
     [⟨"w.csv", 0, 1, PyF.num (mqI 2), PyF.num (mqI 1), PyF.nan, "x", PyF.num (mqI 0),
       PyF.num (mqI 1), "y", PyF.num (mqI 0), PyF.num (mqI 2), none, PyF.nan, PyF.nan⟩])
    (by decide)

/-- C5.  For any table and fit request, the r-squared read off a computed
fit (and the `rsquared` field exported by `make_result`) equals exactly the
square of the fit's stored `rvalue`: it is derived at read time
(`rvalue ** 2`) and never stored separately, so two evaluations of the same
request can never disagree. -/
theorem fit_rsquared_is_rvalue_squared (table : DataFrame) (start stop : Nat)
    (x y : String) (y2 : Option String) (src : String) (f g : LinearFit)
    (h1 : fit_request table start stop x y y2 = Except.ok f)
    (h2 : fit_request table start stop x y y2 = Except.ok g) :
    f.rsquared = pfMul g.result.rvalue g.result.rvalue
    ∧ (f.make_result src).rsquared = pfMul g.result.rvalue g.result.rvalue := by
  rw [h1] at h2
  cases h2
  exact ⟨rfl, rfl⟩

/-- C5 (witness). -/
theorem fit_rsquared_is_rvalue_squared_witness :
    (fit_request fitWitnessTable 0 1 ("x") ("y") none = Except.ok fitWitnessFit)
    ∧ (fitWitnessFit.rsquared = pfMul fitWitnessFit.result.rvalue fitWitnessFit.result.rvalue
      ∧ (fitWitnessFit.make_result ("f")).rsquared
          = pfMul fitWitnessFit.result.rvalue fitWitnessFit.result.rvalue) :=
  ⟨by decide,
   fit_rsquared_is_rvalue_squared fitWitnessTable 0 1 ("x") ("y") none ("f")
     fitWitnessFit fitWitnessFit (by decide) (by decide)⟩

/-- C6.  On the spec's example CSV, ingestion keeps only the numeric
columns (`id`, `value`), drops the non-numeric `name`, and prepends the
synthetic row index (named `index` in the code); the same result is
obtained with the explicit comma separator and with automatic detection. -/
theorem parse_contents_numeric_filtering :
    parse_contents ⟨true, "id,name,value\n1,foo,3.5\n2,bar,4.5\n", none⟩ ("data.csv") 0 ","
      = Except.ok ⟨[("index", [mqOfNat 0, mqOfNat 1]), ("id", [mqI 1, mqI 2]),
                    ("value", [mq 7 2, mq 9 2])]⟩
    ∧ parse_contents ⟨true, "id,name,value\n1,foo,3.5\n2,bar,4.5\n", none⟩ ("data.csv") 0 "auto"
      = Except.ok ⟨[("index", [mqOfNat 0, mqOfNat 1]), ("id", [mqI 1, mqI 2]),
                    ("value", [mq 7 2, mq 9 2])]⟩ :=
  ⟨by decide, by decide⟩

/-- Specification of a successful `with_row_index`: the `index` column is
first, holds 0..height-1, and its name differs from every data column. -/
theorem with_row_index_ok_spec {d r : DataFrame} (h : with_row_index d = Except.ok r) :
    r.cols.head? = some ("index", (List.range r.height).map (fun k => mqOfNat k))
    ∧ ∀ p ∈ r.cols.tail, p.1 ≠ "index" := by
  obtain ⟨hcols, hnames⟩ := with_row_index_ok h
  cases r with
  | mk rcols =>
    dsimp only at hcols ⊢
    subst hcols
    refine ⟨?_, ?_⟩
    · simp [DataFrame.height]
    · intro p hp
      exact hnames p hp

/-- C7.  Whenever ingestion returns a table through one of the two parse
paths (equivalently: a table with at least one column - the failure result
is the column-less empty frame), that table has a zero-based integer row
index as its first column and the index column's name differs from the
name of every data column. -/
theorem parse_contents_prepends_row_index (contents : Upload) (filename : String)
    (skip_rows : Nat) (separator : String) (df : DataFrame)
    (h : parse_contents contents filename skip_rows separator = Except.ok df)
    (hne : df.cols ≠ []) :
    df.cols.head? = some ("index", (List.range df.height).map (fun k => mqOfNat k))
    ∧ ∀ p ∈ df.cols.tail, p.1 ≠ "index" := by
  unfold parse_contents at h
  dsimp only at h
  repeat' split at h
  all_goals first
    | exact with_row_index_ok_spec h
    | (cases h; exact absurd rfl hne)

/-- C7 (witness). -/
theorem parse_contents_prepends_row_index_witness :
    (parse_contents ⟨true, "a,b\n1,2\n", none⟩ ("w.txt") 0 ","
        = Except.ok ⟨[("index", [mqOfNat 0]), ("a", [mqI 1]), ("b", [mqI 2])]⟩)
    ∧ ((DataFrame.mk [("index", [mqOfNat 0]), ("a", [mqI 1]), ("b", [mqI 2])]).cols ≠ [])
    ∧ ((DataFrame.mk [("index", [mqOfNat 0]), ("a", [mqI 1]), ("b", [mqI 2])]).cols.head?
        = some ("index",
            (List.range (DataFrame.mk [("index", [mqOfNat 0]), ("a", [mqI 1]),
              ("b", [mqI 2])]).height).map (fun k => mqOfNat k))
      ∧ ∀ p ∈ (DataFrame.mk [("index", [mqOfNat 0]), ("a", [mqI 1]), ("b", [mqI 2])]).cols.tail,
          p.1 ≠ "index") :=
  ⟨by decide, by decide,
   parse_contents_prepends_row_index ⟨true, "a,b\n1,2\n", none⟩ ("w.txt") 0 ","
     ⟨[("index", [mqOfNat 0]), ("a", [mqI 1]), ("b", [mqI 2])]⟩ (by decide) (by decide)⟩

/-- C8.  Whenever the text has fewer lines than `skip_rows + max(1,
sample_rows)`, the delimiter detector fails before sniffing: with the
empty-file error on no lines at all, and with the insufficient-rows error
otherwise. -/
theorem detect_delimiter_insufficient_rows (text : String) (skip_rows sample_rows : Nat)
    (h : (pySplitlines text.data).length < skip_rows + max 1 sample_rows) :
    detect_delimiter text skip_rows sample_rows
      = Except.error (if (pySplitlines text.data).isEmpty then PyError.emptyFile
          else PyError.insufficientRows) := by
  unfold detect_delimiter
  dsimp only
  by_cases he : (pySplitlines text.data).isEmpty = true
  · rw [if_pos he, if_pos he]
  · rw [if_neg he, if_pos h, if_neg he]

/-- C8 (witness): the spec's example, two lines available and five
requested. -/
theorem detect_delimiter_insufficient_rows_witness :
    ((pySplitlines ("a;b\n1;2\n").data).length < 0 + max 1 5)
    ∧ detect_delimiter ("a;b\n1;2\n") 0 5 = Except.error PyError.insufficientRows :=
  ⟨by decide,
   (detect_delimiter_insufficient_rows ("a;b\n1;2\n") 0 5 (by decide)).trans (by decide)⟩

/-- C9 (counterexample).  Marking a file that has no entry in the store
leaves the store unchanged: the left update inserts nothing, so afterwards
the store contains zero entries for that file, not exactly one. -/
theorem mark_file_no_upsert_counterexample :
    mark_file ⟨[("a", "tbd")]⟩ ("b") ("ok") = MarkerStore.mk [("a", "tbd")]
    ∧ (mark_file ⟨[("a", "tbd")]⟩ ("b") ("ok")).rows.countP (fun e => e.1 == "b") = 0 := by
  decide

/-- C9 (amended).  `mark_file` is a left update, not an upsert: it keeps
the store's row count, rewrites the status of every entry whose key
matches (so an existing single entry ends up carrying the new status), and
leaves every other entry - in particular, when no entry for the file
exists, the store is unchanged and no entry is created. -/
theorem mark_file_left_update (store : MarkerStore) (sf status : String) :
    (mark_file store sf status).rows.length = store.rows.length
    ∧ (mark_file store sf status).rows.countP (fun e => e.1 == sf)
        = store.rows.countP (fun e => e.1 == sf)
    ∧ ∀ e ∈ (mark_file store sf status).rows,
        (e.1 = sf → e.2 = status) ∧ (e.1 ≠ sf → e ∈ store.rows) := by
  unfold mark_file
  dsimp only
  refine ⟨List.length_map _ _, ?_, ?_⟩
  · rw [List.countP_map]
    apply List.countP_congr
    intro r hr
    by_cases hk : (r.1 == sf) = true
    · simp [Function.comp, hk]
    · simp [Function.comp, hk]
  · intro e he
    obtain ⟨r, hr, hre⟩ := List.mem_map.mp he
    by_cases hk : (r.1 == sf) = true
    · rw [if_pos hk] at hre
      constructor
      · intro _
        rw [← hre]
      · intro hne
        have he1 : e.1 = sf := by
          rw [← hre]
          exact beq_iff_eq.mp hk
        exact absurd he1 hne
    · rw [if_neg hk] at hre
      subst hre
      constructor
      · intro heq
        exact absurd (beq_iff_eq.mpr heq) hk
      · intro _
        exact hr

/-- C9 (witness). -/
theorem mark_file_left_update_witness :
    (mark_file ⟨[("a", "tbd"), ("c", "x")]⟩ ("a") ("ok")).rows.length
        = (MarkerStore.mk [("a", "tbd"), ("c", "x")]).rows.length
    ∧ (mark_file ⟨[("a", "tbd"), ("c", "x")]⟩ ("a") ("ok")).rows.countP (fun e => e.1 == "a")
        = (MarkerStore.mk [("a", "tbd"), ("c", "x")]).rows.countP (fun e => e.1 == "a")
    ∧ ∀ e ∈ (mark_file ⟨[("a", "tbd"), ("c", "x")]⟩ ("a") ("ok")).rows,
        (e.1 = "a" → e.2 = "ok")
        ∧ (e.1 ≠ "a" → e ∈ (MarkerStore.mk [("a", "tbd"), ("c", "x")]).rows) :=
  mark_file_left_update ⟨[("a", "tbd"), ("c", "x")]⟩ ("a") ("ok")

/-- C10.  In `make_fit_trace`, the secondary-column mean shown in the hover
text is replaced by `nan` whenever the `y2_mean` argument is falsy - the
float `0.0` or `None` - because of `y2_mean = y2_mean or float("nan")`; a
nonzero mean is shown as passed. -/
theorem make_fit_trace_falsy_y2_mean_nan (x : List MQ) (yf : List PyF) (nm : String)
    (slope rsq : PyF) (st : Nat) (q : MQ) (hq : q.isZero = false) :
    (make_fit_trace x yf nm slope rsq st (some (PyF.num (mqI 0)))).hover_y2 = PyF.nan
    ∧ (make_fit_trace x yf nm slope rsq st none).hover_y2 = PyF.nan
    ∧ (make_fit_trace x yf nm slope rsq st (some (PyF.num q))).hover_y2 = PyF.num q := by
  refine ⟨rfl, rfl, ?_⟩
  simp [make_fit_trace, pfTruthy, hq]

/-- C10 (witness). -/
theorem make_fit_trace_falsy_y2_mean_nan_witness :
    ((mqI 5).isZero = false)
    ∧ ((make_fit_trace [] [] ("n") PyF.nan PyF.nan 0 (some (PyF.num (mqI 0)))).hover_y2 = PyF.nan
      ∧ (make_fit_trace [] [] ("n") PyF.nan PyF.nan 0 none).hover_y2 = PyF.nan
      ∧ (make_fit_trace [] [] ("n") PyF.nan PyF.nan 0 (some (PyF.num (mqI 5)))).hover_y2
          = PyF.num (mqI 5)) :=
  ⟨by decide, make_fit_trace_falsy_y2_mean_nan [] [] ("n") PyF.nan PyF.nan 0 (mqI 5) (by decide)⟩
